import Mathlib

/-
  Verification of the staging-file rotation engine of southwinds-io/file-exporter
  (src/fileexporter.go, src/config.go).

  The engine receives serialized telemetry batches (Go byte slices) and appends
  them to a single staging file named ".inproc" inside a target directory,
  finalizing (renaming) that file when a size- or count-based rotation policy
  fires.  The embedding below translates fileexporter.go: the exporter struct,
  writeAsPerKb, writeAsPerEventCount, isFileSizeExceeding, exportAsLine and the
  new-name computation of renameFile.  File-system effects are made explicit:
  the directory is a state value, and each accept call takes a record saying
  which of its file-system operations fail during that call.
-/

set_option maxHeartbeats 1000000
set_option maxRecDepth 2000

/-- One telemetry batch: the marshalled byte buffer handed to exportAsLine
(a Go byte slice), modelled as its list of bytes. -/
abbrev Batch := List Nat

/-- The errors an accept call can return.  Each constructor corresponds to one
return-err site in fileexporter.go.  Deliberately absent, mirroring the source:
no constructor for a failed MkdirAll (exportAsLine line 126 only logs it and
continues) and no constructor for finding several staging files (no such check
exists anywhere in the source). -/
inductive Err
  | writeNewErr
  | openErr
  | statErr
  | writeNlErr
  | writeBufErr
  | closeErr
  | renameErr
  | invalidFormatErr
  | invalidOptionErr
deriving DecidableEq, Repr

/-- Constant Json of config.go (line 24). -/
def Json : String := "json"

/-- Constant Protobuf of config.go (line 25). -/
def Protobuf : String := "protobuf"

/-- Constant json of fileexporter.go (line 35): the finalized-name extension
for the textual encoding. -/
def jsonExt : String := "json"

/-- Constant protobuf of fileexporter.go (line 36): the finalized-name
extension for the binary encoding. -/
def protoExt : String := "proto"

/-- Constant timeFormat of fileexporter.go (line 33): the Go layout used to
format the finalize timestamp, with sub-second (nanosecond) precision. -/
def timeFormat : String := "2006_01_02_15_04_05_999999999"

/-- The fileExporter struct of fileexporter.go (line 51), keeping the fields
the rotation engine reads or writes.  The int64 fields fileSizeKb,
eventsPerFile and currentEventCount only ever hold non-negative values
(config validation admits only positive limits, and the counter starts at 0
and is only incremented or reset), so they are modelled as Nat. -/
structure fileExporter where
  fileSizeKb : Nat
  eventsPerFile : Nat
  format : String
  currentEventCount : Nat
deriving DecidableEq, Repr

/-- One target directory of the exporter.  present: whether the directory
exists on disk.  staging: the content of the single file named ".inproc"
(none when no such file exists), kept as the list of batches written to it,
separated on disk by single newline bytes.  finalized: the contents of the
finalized (renamed) files, in finalization order. -/
structure Dir where
  present : Bool
  staging : Option (List Batch)
  finalized : List (List Batch)
deriving DecidableEq, Repr

/-- Failure script for one accept call: which of the call's file-system
operations fail.  open1Fails and statFails belong to the OpenFile and Stat
calls inside isFileSizeExceeding; open2Fails to the append-mode OpenFile;
writeNewFails to resx.WriteFile inside writeToNewFile (modelled as atomic:
on failure the target file is unchanged, resx is an external library). -/
structure CallFS where
  mkdirFails : Bool
  writeNewFails : Bool
  open1Fails : Bool
  statFails : Bool
  open2Fails : Bool
  writeNlFails : Bool
  writeBufFails : Bool
  closeFails : Bool
  renameFails : Bool
deriving DecidableEq, Repr

/-- The failure-free script: every file-system operation succeeds. -/
def noFail : CallFS := ⟨false, false, false, false, false, false, false, false, false⟩

/-- Engine state threaded through a call: the exporter struct and the target
directory. -/
abbrev St := fileExporter × Dir

/-- Result of one accept call.  ok and fail carry the post-call state; fail
carries the returned non-nil error.  panicked models a Go runtime panic
(the call does not return to its caller). -/
inductive Outcome
  | ok (s : St)
  | fail (er : Err) (s : St)
  | panicked
deriving DecidableEq, Repr

/-- On-disk size in bytes of the file holding these batches: writeToNewFile
writes the first batch as-is and every append writes one newline byte followed
by the batch (fileexporter.go lines 190-197 and 232-239), so the size is the
sum of the batch lengths plus one separator byte between consecutive batches. -/
def fileSizeBytes : List Batch → Nat
  | [] => 0
  | [b] => b.length
  | b :: rest => b.length + 1 + fileSizeBytes rest

/-- ASCII lower-casing of one character. -/
def lowerChar (c : Char) : Char :=
  if 'A' ≤ c ∧ c ≤ 'Z' then Char.ofNat (c.toNat + 32) else c

/-- strings.EqualFold as used on the format label; the strings compared in
this program are ASCII, for which EqualFold is comparison after ASCII
lower-casing of both sides. -/
def eqFold (a b : String) : Bool := decide (a.data.map lowerChar = b.data.map lowerChar)

/-- The finalized-name extension selection, shared verbatim by renameFile
(fileexporter.go lines 318-325) and writeAsPerEventCount (lines 253-260):
json for the json format, proto for the protobuf format, otherwise the
invalid-format error. -/
def formatExtension (format : String) : Except Err String :=
  if eqFold format Json then .ok jsonExt
  else if eqFold format Protobuf then .ok protoExt
  else .error .invalidFormatErr

/-- The filepath.Glob result for the staging lookup (fileexporter.go lines
162 and 218).  The pattern is filepath.Join(path, ".inproc") — the literal
staging name with no metacharacters — so it matches exactly the one file
named ".inproc" when it exists; the returned list pairs each located path
with that file's content.  Glob itself can only fail on a malformed pattern,
which this constant pattern is not, so no error case arises. -/
def globStaging (d : Dir) : List (List Batch) :=
  match d.staging with
  | none => []
  | some c => [c]

/-- isFileSizeExceeding of fileexporter.go (lines 277-306), over the located
staging-file list: answers false for an empty list; otherwise opens and stats
files[0] (either can fail), divides its byte size by 1024 (integer division),
adds msize (the incoming batch's size already divided by 1024 at line 167)
and answers whether the sum strictly exceeds fileSizeKb. -/
def isFileSizeExceeding (e : fileExporter) (files : List (List Batch)) (msize : Nat)
    (fs : CallFS) : Except Err Bool :=
  match files with
  | [] => .ok false
  | f :: _ =>
    if fs.open1Fails then .error .openErr
    else if fs.statFails then .error .statErr
    else .ok (decide (e.fileSizeKb < fileSizeBytes f / 1024 + msize))

/-- File operations writeAsPerKb can perform after its glob, each acting on
the first located file or on the staging name. -/
inductive KbOp
  | renamedHead
  | wroteNew
  | appendedHead
deriving DecidableEq, Repr

/-- The body of writeAsPerKb after the Glob call (fileexporter.go lines
167-203), as a function of the located staging-file list: the returned error
(none for a nil return) and the file operations performed, in order.
Faithful details: msize is the batch length over 1024 (line 167,
binary.Size of a byte slice is its length); when the rotate branch is taken
the renameFile error is DISCARDED (line 174 uses no assignment) and execution
falls through to writeToNewFile on the staging name, which overwrites it;
the append branch writes a newline then the batch to files[0].  No branch
inspects whether more than one file was located. -/
def writeAsPerKbPostGlob (e : fileExporter) (files : List (List Batch)) (buf : Batch)
    (fs : CallFS) : Option Err × List KbOp :=
  let msize := buf.length / 1024
  match isFileSizeExceeding e files msize fs with
  | .error er => (some er, [])
  | .ok bol =>
    if files.isEmpty || bol then
      let renOps : List KbOp := if bol then (if fs.renameFails then [] else [.renamedHead]) else []
      if fs.writeNewFails then (some .writeNewErr, renOps)
      else (none, renOps ++ [.wroteNew])
    else
      if fs.open2Fails then (some .openErr, [])
      else if fs.writeNlFails then (some .writeNlErr, [])
      else if fs.writeBufFails then (some .writeBufErr, [])
      else (none, [.appendedHead])

/-- Effect of one KbOp on the directory: renamedHead moves the staging
content to the finalized list (rename drops the staging name); wroteNew
writes buf as the new content of the staging name, replacing whatever was
there (resx.WriteFile overwrites); appendedHead appends buf after a newline
to the staging file. -/
def applyOp (buf : Batch) (d : Dir) : KbOp → Dir
  | .renamedHead =>
    match d.staging with
    | some c => { d with staging := none, finalized := d.finalized ++ [c] }
    | none => d
  | .wroteNew => { d with staging := some [buf] }
  | .appendedHead =>
    match d.staging with
    | some c => { d with staging := some (c ++ [buf]) }
    | none => d

/-- writeAsPerKb of fileexporter.go (lines 160-204): glob the staging name,
run the post-glob body, and apply its file operations to the directory.
The exporter struct is not mutated on this path. -/
def writeAsPerKb (e : fileExporter) (d : Dir) (buf : Batch) (fs : CallFS) : Outcome :=
  let r := writeAsPerKbPostGlob e (globStaging d) buf fs
  let d' := r.2.foldl (applyOp buf) d
  match r.1 with
  | some er => .fail er (e, d')
  | none => .ok (e, d')

/-- writeAsPerEventCount of fileexporter.go (lines 206-275).  Faithful
details: when currentEventCount is 0 the counter is incremented BEFORE
writeToNewFile and the branch returns without any limit check (lines
209-214); otherwise the glob result is indexed at 0 with no length check
(line 223), a Go runtime panic when the list is empty; on a successful
append the counter is incremented and, exactly when it equals eventsPerFile,
the file is closed, the extension computed (invalid format returns an error
here), the file renamed (a failing rename returns its error with the counter
left incremented) and on success the counter is reset to 0. -/
def writeAsPerEventCount (e : fileExporter) (d : Dir) (buf : Batch) (fs : CallFS) : Outcome :=
  if e.currentEventCount = 0 then
    let e' := { e with currentEventCount := e.currentEventCount + 1 }
    if fs.writeNewFails then .fail .writeNewErr (e', d)
    else .ok (e', { d with staging := some [buf] })
  else
    match globStaging d with
    | [] => .panicked
    | c :: _ =>
      if fs.open2Fails then .fail .openErr (e, d)
      else if fs.writeNlFails then .fail .writeNlErr (e, d)
      else if fs.writeBufFails then .fail .writeBufErr (e, d)
      else
        let c' := c ++ [buf]
        let d' := { d with staging := some c' }
        let e' := { e with currentEventCount := e.currentEventCount + 1 }
        if e'.currentEventCount = e.eventsPerFile then
          if fs.closeFails then .fail .closeErr (e', d')
          else
            match formatExtension e.format with
            | .error er => .fail er (e', d')
            | .ok _ =>
              if fs.renameFails then .fail .renameErr (e', d')
              else .ok ({ e' with currentEventCount := 0 },
                        { d with staging := none, finalized := d.finalized ++ [c'] })
        else .ok (e', d')

/-- exportAsLine of fileexporter.go (lines 117-139): ensure the target
directory exists — a failing MkdirAll is only logged (line 126) and execution
continues — then dispatch on the configured policy: fileSizeKb positive
selects the size policy, else eventsPerFile positive selects the count
policy, else the invalid-option error. -/
def exportAsLine (e : fileExporter) (d : Dir) (buf : Batch) (fs : CallFS) : Outcome :=
  let d1 := if !d.present && !fs.mkdirFails then { d with present := true } else d
  if 0 < e.fileSizeKb then writeAsPerKb e d1 buf fs
  else if 0 < e.eventsPerFile then writeAsPerEventCount e d1 buf fs
  else .fail .invalidOptionErr (e, d1)

/-- Harness: the state after one failure-free count-policy call; a fail
outcome carries its post-call state, and a panicking call is treated as
leaving the state unchanged (the per-call theorems expose panics directly). -/
def stepCount (e : fileExporter) (d : Dir) (b : Batch) : St :=
  match writeAsPerEventCount e d b noFail with
  | .ok s => s
  | .fail _ s => s
  | .panicked => (e, d)

/-- Harness: fold a batch sequence through failure-free count-policy calls. -/
def runCountFrom : fileExporter → Dir → List Batch → St
  | e, d, [] => (e, d)
  | e, d, b :: rest => runCountFrom (stepCount e d b).1 (stepCount e d b).2 rest

/-- Harness: the state after one failure-free size-policy call. -/
def stepKb (e : fileExporter) (d : Dir) (b : Batch) : St :=
  match writeAsPerKb e d b noFail with
  | .ok s => s
  | .fail _ s => s
  | .panicked => (e, d)

/-- Harness: fold a batch sequence through failure-free size-policy calls. -/
def runKbFrom : fileExporter → Dir → List Batch → St
  | e, d, [] => (e, d)
  | e, d, b :: rest => runKbFrom (stepKb e d b).1 (stepKb e d b).2 rest

/-- The fresh target directory: existing, no staging file, nothing
finalized. -/
def dir0 : Dir := ⟨true, none, []⟩

/-- The staging marker: the constant file name ".inproc" built at
fileexporter.go lines 176, 211, 262 and 328 from the ext constant. -/
def marker : List Char := ['.', 'i', 'n', 'p', 'r', 'o', 'c']

/-- Whether pat occurs at the start of s. -/
def matchesAt (pat s : List Char) : Bool := decide (pat = s.take pat.length)

/-- Whether pat occurs anywhere in s. -/
def occursIn (pat : List Char) : List Char → Bool
  | [] => decide (pat = [])
  | c :: rest => matchesAt pat (c :: rest) || occursIn pat rest

/-- strings.Replace(s, old, new, 1): replace the first occurrence of old in s
by new; s unchanged when old does not occur (for nonempty old). -/
def replaceFirst : List Char → List Char → List Char → List Char
  | [], old, new => if old = [] then new else []
  | c :: rest, old, new =>
    if matchesAt old (c :: rest) then new ++ (c :: rest).drop old.length
    else c :: replaceFirst rest old new

/-- The new-name computation of renameFile (fileexporter.go lines 316-330),
duplicated inline in writeAsPerEventCount (lines 251-264): pick the extension
for the format, build t ++ "." ++ extension where t is the timestamp string
produced by formatting time.Now().UTC() with timeFormat (passed here as an
opaque character list), and replace the first occurrence of the staging
marker in the file path by it. -/
def renameFileNewName (f : List Char) (format : String) (t : List Char) :
    Except Err (List Char) :=
  match formatExtension format with
  | .error er => .error er
  | .ok newex => .ok (replaceFirst f marker (t ++ '.' :: newex.toList))

/-- Sample batches for concrete runs. -/
def b1023 : Batch := List.replicate 1023 0

/-- A 2048-byte sample batch. -/
def b2048 : Batch := List.replicate 2048 0

/-- Size of the 1023-byte sample batch. -/
theorem b1023_length : b1023.length = 1023 := by
  show (List.replicate 1023 (0 : Nat)).length = 1023
  exact List.length_replicate ..

/-- Size of the 2048-byte sample batch. -/
theorem b2048_length : b2048.length = 2048 := by
  show (List.replicate 2048 (0 : Nat)).length = 2048
  exact List.length_replicate ..

/-- C1: Under the count-based policy with configured limit 1, the engine
never finalizes anything: writeAsPerEventCount's first-batch branch (lines
209-214) returns before any limit check, so the counter reaches 1 without
rotating, then climbs 2, 3, ... and never equals the limit 1 again.  Three
sequential batches, all writes succeeding, leave all three accumulated in the
single staging file, zero files finalized and the counter at 3 — the claimed
behaviour (three finalized single-batch files in submission order) does not
occur. -/
theorem countLimitOne_three_batches :
    (runCountFrom ⟨0, 1, Json, 0⟩ dir0 [[0], [1], [2]]).2.finalized = [] ∧
    (runCountFrom ⟨0, 1, Json, 0⟩ dir0 [[0], [1], [2]]).2.staging = some [[0], [1], [2]] ∧
    (runCountFrom ⟨0, 1, Json, 0⟩ dir0 [[0], [1], [2]]).1.currentEventCount = 3 := by
  decide

/-- C2: Under the count-based policy with currentEventCount 0, the counter is
incremented BEFORE the write of the new staging file is attempted (lines
209-214), so when that write fails the call returns the write error with
currentEventCount left at 1, not at its pre-call value 0 — the claimed
idempotence of failure does not hold on the first batch. -/
theorem failedFirstWrite_increments_counter :
    writeAsPerEventCount ⟨0, 2, Json, 0⟩ dir0 [0] { noFail with writeNewFails := true } =
      .fail .writeNewErr (⟨0, 2, Json, 1⟩, dir0) := by
  decide

/-- C3: Under the size-based policy, when rotation is decided and the rename
fails, writeAsPerKb discards renameFile's error (line 174 has no assignment)
and falls through to writeToNewFile, which overwrites the staging file: the
call returns ok (no failure reported to the caller) and the old staging
content (here one 2048-byte batch) is destroyed, so no later call can retry
the rotation. -/
theorem renameFailure_discarded_staging_overwritten :
    writeAsPerKb ⟨1, 0, Json, 0⟩ ⟨true, some [b2048], []⟩ [5]
        { noFail with renameFails := true } =
      .ok (⟨1, 0, Json, 0⟩, ⟨true, some [[5]], []⟩) := by
  simp [writeAsPerKb, writeAsPerKbPostGlob, isFileSizeExceeding, globStaging, fileSizeBytes,
    b2048_length, noFail, applyOp]

/-- C4: When creating the target directory fails, exportAsLine only logs the
MkdirAll error (line 126) and continues into the write path: with the write
succeeding the call returns ok and the batch is accepted; with the write also
failing the returned error is the write's, and the append was attempted
either way (the counter advanced to 1) — the mkdir failure is never returned
to the caller and does not stop acceptance of the batch. -/
theorem mkdirFailure_ignored_batch_accepted :
    exportAsLine ⟨0, 1, Json, 0⟩ ⟨false, none, []⟩ [0] { noFail with mkdirFails := true } =
      .ok (⟨0, 1, Json, 1⟩, ⟨false, some [[0]], []⟩) ∧
    exportAsLine ⟨0, 1, Json, 0⟩ ⟨false, none, []⟩ [0]
        { noFail with mkdirFails := true, writeNewFails := true } =
      .fail .writeNewErr (⟨0, 1, Json, 1⟩, ⟨false, none, []⟩) := by
  decide

/-- C5: Under the count-based policy a failed first write leaves
currentEventCount at 1 with no staging file on disk (first conjunct); the
next accept call then takes the nonzero-counter branch, whose glob finds no
file, and indexes files[0] on the empty result (line 223) — a Go index
out-of-range panic, not a normal return (second conjunct). -/
theorem counterPositive_missingStaging_panics :
    writeAsPerEventCount ⟨0, 2, Json, 0⟩ dir0 [3] { noFail with writeNewFails := true } =
      .fail .writeNewErr (⟨0, 2, Json, 1⟩, dir0) ∧
    writeAsPerEventCount ⟨0, 2, Json, 1⟩ dir0 [4] noFail = .panicked := by
  decide

/-- C6 counterexample: with SizeLimit 1 and two 1023-byte batches followed by
a 2048-byte one, the first two are merged into one staging file (the rotation
test floors 1023 bytes to 0 KB) and that file is finalized at 2047 bytes —
a finalized file of two batches strictly exceeding the claimed 1*1024-byte
bound. -/
theorem sizeLimit_exceeds_kb_counterexample :
    (runKbFrom ⟨1, 0, Json, 0⟩ dir0 [b1023, b1023, b2048]).2.finalized = [[b1023, b1023]] ∧
    2 ≤ ([b1023, b1023] : List Batch).length ∧
    1024 * 1 < fileSizeBytes [b1023, b1023] := by
  simp [runKbFrom, stepKb, writeAsPerKb, writeAsPerKbPostGlob, isFileSizeExceeding,
    globStaging, fileSizeBytes, b1023_length, b2048_length, noFail, applyOp, dir0]

/-- C9 counterexample: handed a located-files list of two staging files, the
post-glob body of writeAsPerKb returns no error and silently appends the
batch to the first of them — there is no invariant-violation report (the Err
type of this embedding mirrors the source's return-err sites and has no such
constructor). -/
theorem multiStaging_silent_append_counterexample :
    writeAsPerKbPostGlob ⟨100, 0, Json, 0⟩ [[[0]], [[1]]] [2] noFail =
      (none, [.appendedHead]) := by
  decide

/-- C9 amended: the staging lookup is a glob on the one literal name
".inproc", so it never locates more than one file; and the engine performs no
multiplicity check — the body of writeAsPerKb after the glob ignores
everything but the first located file, behaving identically on f :: rest and
on [f] for every tail rest, rather than reporting any error. -/
theorem stagingLookup_atMostOne_headOnly :
    (∀ d : Dir, (globStaging d).length ≤ 1) ∧
    (∀ (e : fileExporter) (f : List Batch) (rest : List (List Batch)) (buf : Batch)
        (fs : CallFS),
      writeAsPerKbPostGlob e (f :: rest) buf fs = writeAsPerKbPostGlob e [f] buf fs) := by
  constructor
  · intro d
    cases h : d.staging <;> simp [globStaging, h]
  · intro e f rest buf fs
    simp only [writeAsPerKbPostGlob, isFileSizeExceeding, List.isEmpty_cons]

/-- C7: the size-based rotation decision of isFileSizeExceeding: it answers
false on an empty located list; on a nonempty list (failure-free) it answers
exactly whether floor(currentFileSizeBytes/1024) + floor(batchSizeBytes/1024)
strictly exceeds fileSizeKb; and when the answer is true, writeAsPerKb
renames the staging file (its content joins the finalized list) before the
incoming batch is written to a fresh staging file holding just that batch. -/
theorem sizeDecision_spec :
    (∀ (e : fileExporter) (msize : Nat) (fs : CallFS),
        isFileSizeExceeding e [] msize fs = .ok false) ∧
    (∀ (e : fileExporter) (c : List Batch) (rest : List (List Batch)) (buf : Batch),
        isFileSizeExceeding e (c :: rest) (buf.length / 1024) noFail =
          .ok (decide (e.fileSizeKb < fileSizeBytes c / 1024 + buf.length / 1024))) ∧
    (∀ (e : fileExporter) (d : Dir) (c : List Batch) (buf : Batch),
        d.staging = some c →
        e.fileSizeKb < fileSizeBytes c / 1024 + buf.length / 1024 →
        writeAsPerKb e d buf noFail =
          .ok (e, { d with staging := some [buf], finalized := d.finalized ++ [c] })) := by
  refine ⟨fun e msize fs => rfl, fun e c rest buf => rfl, ?_⟩
  intro e d c buf hst hlt
  obtain ⟨p, st, fin⟩ := d
  simp only at hst
  subst hst
  simp [writeAsPerKb, writeAsPerKbPostGlob, isFileSizeExceeding, globStaging, noFail,
    applyOp, decide_eq_true hlt]

/-- Witness for sizeDecision_spec: with limit 1 KB, a staging file holding one
2048-byte batch and a 1-byte incoming batch, the decision is true and the
call finalizes the old content and starts a fresh staging file with the new
batch. -/
theorem sizeDecision_spec_witness :
    writeAsPerKb ⟨1, 0, Json, 0⟩ ⟨true, some [b2048], []⟩ [0] noFail =
      .ok (⟨1, 0, Json, 0⟩, ⟨true, some [[0]], [[b2048]]⟩) :=
  sizeDecision_spec.2.2 ⟨1, 0, Json, 0⟩ ⟨true, some [b2048], []⟩ [b2048] [0] rfl
    (by simp [fileSizeBytes, b2048_length])

/-- Behaviour of a failure-free count-policy call when the counter is 0:
write the batch as a fresh staging file and set the counter to 1. -/
theorem countStep_zero (e : fileExporter) (d : Dir) (b : Batch)
    (h : e.currentEventCount = 0) :
    writeAsPerEventCount e d b noFail =
      .ok ({ e with currentEventCount := 1 }, { d with staging := some [b] }) := by
  simp [writeAsPerEventCount, noFail, h]

/-- Behaviour of a failure-free count-policy call when the counter is positive
and the incremented counter misses the limit: append and count. -/
theorem countStep_append (e : fileExporter) (d : Dir) (b : Batch) (c : List Batch)
    (h : e.currentEventCount ≠ 0) (hst : d.staging = some c)
    (hne : e.currentEventCount + 1 ≠ e.eventsPerFile) :
    writeAsPerEventCount e d b noFail =
      .ok ({ e with currentEventCount := e.currentEventCount + 1 },
           { d with staging := some (c ++ [b]) }) := by
  simp [writeAsPerEventCount, noFail, h, globStaging, hst, hne]

/-- Behaviour of a failure-free count-policy call when the incremented counter
hits the limit and the format is valid: append, finalize, reset the counter. -/
theorem countStep_finalize (e : fileExporter) (d : Dir) (b : Batch) (c : List Batch)
    (newex : String) (h : e.currentEventCount ≠ 0) (hst : d.staging = some c)
    (heq : e.currentEventCount + 1 = e.eventsPerFile)
    (hfmt : formatExtension e.format = .ok newex) :
    writeAsPerEventCount e d b noFail =
      .ok ({ e with currentEventCount := 0 },
           { d with staging := none, finalized := d.finalized ++ [c ++ [b]] }) := by
  simp [writeAsPerEventCount, noFail, h, globStaging, hst, heq, hfmt]

/-- Behaviour of a failure-free count-policy call when the incremented counter
hits the limit but the format label is invalid: the error is returned before
the rename, with the counter incremented and the staging file keeping the
appended batch. -/
theorem countStep_badFormat (e : fileExporter) (d : Dir) (b : Batch) (c : List Batch)
    (er : Err) (h : e.currentEventCount ≠ 0) (hst : d.staging = some c)
    (heq : e.currentEventCount + 1 = e.eventsPerFile)
    (hfmt : formatExtension e.format = .error er) :
    writeAsPerEventCount e d b noFail =
      .fail er ({ e with currentEventCount := e.currentEventCount + 1 },
                { d with staging := some (c ++ [b]) }) := by
  simp [writeAsPerEventCount, noFail, h, globStaging, hst, heq, hfmt]

/-- Invariant of the count policy with limit n: the limit field is n, every
finalized file holds exactly n batches, and the counter equals the number of
batches in the staging file (0 when there is none). -/
def CInv (n : Nat) (e : fileExporter) (d : Dir) : Prop :=
  e.eventsPerFile = n ∧
  (∀ f ∈ d.finalized, f.length = n) ∧
  (∀ c, d.staging = some c → e.currentEventCount = c.length) ∧
  (d.staging = none → e.currentEventCount = 0)

/-- One failure-free count-policy call preserves the count invariant. -/
theorem stepCount_inv {n : Nat} {e : fileExporter} {d : Dir} (b : Batch)
    (h : CInv n e d) : CInv n (stepCount e d b).1 (stepCount e d b).2 := by
  obtain ⟨hn, hfin, hsome, hnone⟩ := h
  by_cases hc : e.currentEventCount = 0
  · rw [stepCount, countStep_zero e d b hc]
    refine ⟨hn, hfin, ?_, ?_⟩
    · intro c hcs
      simp only [Option.some.injEq] at hcs
      subst hcs
      rfl
    · intro hcs
      exact Option.noConfusion hcs
  · cases hst : d.staging with
    | none => exact absurd (hnone hst) hc
    | some c =>
      by_cases hlim : e.currentEventCount + 1 = e.eventsPerFile
      · cases hfmt : formatExtension e.format with
        | ok newex =>
          rw [stepCount, countStep_finalize e d b c newex hc hst hlim hfmt]
          refine ⟨hn, ?_, ?_, fun _ => rfl⟩
          · intro f hf
            rcases List.mem_append.1 hf with hf | hf
            · exact hfin f hf
            · rw [List.mem_singleton.1 hf, List.length_append, List.length_singleton,
                ← hsome c hst, hlim, hn]
          · intro c' hc'
            exact Option.noConfusion hc'
        | error er =>
          rw [stepCount, countStep_badFormat e d b c er hc hst hlim hfmt]
          refine ⟨hn, hfin, ?_, ?_⟩
          · intro c' hc'
            simp only [Option.some.injEq] at hc'
            subst hc'
            rw [List.length_append, List.length_singleton, hsome c hst]
          · intro hc'
            exact Option.noConfusion hc'
      · rw [stepCount, countStep_append e d b c hc hst hlim]
        refine ⟨hn, hfin, ?_, ?_⟩
        · intro c' hc'
          simp only [Option.some.injEq] at hc'
          subst hc'
          rw [List.length_append, List.length_singleton, hsome c hst]
        · intro hc'
          exact Option.noConfusion hc'

/-- A failure-free count-policy run preserves the count invariant. -/
theorem runCount_inv (n : Nat) :
    ∀ (bs : List Batch) (e : fileExporter) (d : Dir), CInv n e d →
      CInv n (runCountFrom e d bs).1 (runCountFrom e d bs).2
  | [], _, _, h => h
  | b :: rest, _, _, h => runCount_inv n rest _ _ (stepCount_inv b h)

/-- C8: Under the count-based policy with limit n, starting from a fresh
engine (counter 0) and an empty target directory, every finalized file
produced by a failure-free run contains exactly n newline-delimited batches:
the counter always equals the number of batches in the staging file, and the
only path that finalizes is the one where the incremented counter equals
eventsPerFile.  (With n = 1 this holds vacuously: no file is ever finalized,
the defect recorded for the count-of-one scenario.) -/
theorem countPolicy_finalized_exactCount (n : Nat) (fmt : String) (bs : List Batch)
    (f : List Batch)
    (hf : f ∈ (runCountFrom ⟨0, n, fmt, 0⟩ dir0 bs).2.finalized) :
    f.length = n :=
  (runCount_inv n bs ⟨0, n, fmt, 0⟩ dir0
      ⟨rfl, by simp [dir0], by simp [dir0], fun _ => rfl⟩).2.1 f hf

/-- Witness for countPolicy_finalized_exactCount: with limit 2 and three
batches, the run finalizes exactly one file holding the first two batches,
and that file's batch count is 2. -/
theorem countPolicy_finalized_exactCount_witness :
    ([[0], [1]] : List Batch).length = 2 :=
  countPolicy_finalized_exactCount 2 Json [[0], [1], [2]] [[0], [1]] (by decide)

/-- Behaviour of a failure-free size-policy call when no staging file exists:
write the batch as a fresh staging file. -/
theorem kbStep_none (e : fileExporter) (d : Dir) (b : Batch) (hst : d.staging = none) :
    writeAsPerKb e d b noFail = .ok (e, { d with staging := some [b] }) := by
  simp [writeAsPerKb, writeAsPerKbPostGlob, isFileSizeExceeding, globStaging, hst, noFail,
    applyOp]

/-- Behaviour of a failure-free size-policy call when the staging file exists
and the floored-kilobyte sum stays within the limit: append to it. -/
theorem kbStep_append (e : fileExporter) (d : Dir) (b : Batch) (c : List Batch)
    (hst : d.staging = some c)
    (hle : ¬ e.fileSizeKb < fileSizeBytes c / 1024 + b.length / 1024) :
    writeAsPerKb e d b noFail = .ok (e, { d with staging := some (c ++ [b]) }) := by
  simp [writeAsPerKb, writeAsPerKbPostGlob, isFileSizeExceeding, globStaging, hst, noFail,
    applyOp, decide_eq_false hle]

/-- Behaviour of a failure-free size-policy call when the staging file exists
and the floored-kilobyte sum exceeds the limit: finalize it and write the
batch as a fresh staging file. -/
theorem kbStep_rotate (e : fileExporter) (d : Dir) (b : Batch) (c : List Batch)
    (hst : d.staging = some c)
    (hlt : e.fileSizeKb < fileSizeBytes c / 1024 + b.length / 1024) :
    writeAsPerKb e d b noFail =
      .ok (e, { d with staging := some [b], finalized := d.finalized ++ [c] }) := by
  simp [writeAsPerKb, writeAsPerKbPostGlob, isFileSizeExceeding, globStaging, hst, noFail,
    applyOp, decide_eq_true hlt]

/-- Appending one batch grows the file by at most its length plus the one
newline separator byte. -/
theorem fileSizeBytes_append (c : List Batch) (b : Batch) :
    fileSizeBytes (c ++ [b]) ≤ fileSizeBytes c + 1 + b.length := by
  induction c with
  | nil => simp [fileSizeBytes]
  | cons x rest ih =>
    cases rest with
    | nil => simp [fileSizeBytes]
    | cons y t =>
      rw [show fileSizeBytes ((x :: y :: t) ++ [b]) =
            x.length + 1 + fileSizeBytes ((y :: t) ++ [b]) from rfl,
        show fileSizeBytes (x :: y :: t) = x.length + 1 + fileSizeBytes (y :: t) from rfl]
      omega

/-- Invariant of the size policy with limit K: every finalized file of at
least two batches, and the staging file whenever it has at least two batches,
is at most 1024*K + 2047 bytes. -/
def KbInv (K : Nat) (d : Dir) : Prop :=
  (∀ f ∈ d.finalized, 2 ≤ f.length → fileSizeBytes f ≤ 1024 * K + 2047) ∧
  (∀ c, d.staging = some c → 2 ≤ c.length → fileSizeBytes c ≤ 1024 * K + 2047)

/-- One failure-free size-policy call preserves the size invariant and leaves
the exporter struct unchanged. -/
theorem stepKb_inv {e : fileExporter} {d : Dir} (b : Batch) (h : KbInv e.fileSizeKb d) :
    KbInv e.fileSizeKb (stepKb e d b).2 ∧ (stepKb e d b).1 = e := by
  obtain ⟨hfin, hstg⟩ := h
  cases hst : d.staging with
  | none =>
    rw [stepKb, kbStep_none e d b hst]
    refine ⟨⟨hfin, ?_⟩, rfl⟩
    intro c hc h2
    simp only [Option.some.injEq] at hc
    subst hc
    simp at h2
  | some c =>
    by_cases hlt : e.fileSizeKb < fileSizeBytes c / 1024 + b.length / 1024
    · rw [stepKb, kbStep_rotate e d b c hst hlt]
      refine ⟨⟨?_, ?_⟩, rfl⟩
      · intro f hf h2
        rcases List.mem_append.1 hf with hf | hf
        · exact hfin f hf h2
        · rw [List.mem_singleton.1 hf]
          exact hstg c hst (List.mem_singleton.1 hf ▸ h2)
      · intro c' hc' h2
        simp only [Option.some.injEq] at hc'
        subst hc'
        simp at h2
    · rw [stepKb, kbStep_append e d b c hst hlt]
      refine ⟨⟨hfin, ?_⟩, rfl⟩
      intro c' hc' _
      simp only [Option.some.injEq] at hc'
      subst hc'
      have h1 := fileSizeBytes_append c b
      omega

/-- A failure-free size-policy run preserves the size invariant. -/
theorem runKb_inv :
    ∀ (bs : List Batch) (e : fileExporter) (d : Dir), KbInv e.fileSizeKb d →
      KbInv e.fileSizeKb (runKbFrom e d bs).2
  | [], _, _, h => h
  | b :: rest, e, d, h => by
    have hs := stepKb_inv (e := e) (d := d) b h
    show KbInv e.fileSizeKb (runKbFrom (stepKb e d b).1 (stepKb e d b).2 rest).2
    rw [hs.2]
    exact runKb_inv rest e (stepKb e d b).2 hs.1

/-- C6 amended: under the size-based policy with limit K, starting from a
fresh engine and an empty directory, every finalized file of more than one
batch in a failure-free run is at most 1024*K + 2047 bytes at the moment it
is finalized: the rotation test floors both the current file size and the
incoming batch size to whole kilobytes, so an allowed append can add up to
1023+1023 unseen bytes plus the uncounted newline separator beyond K
kilobytes, and no more. -/
theorem sizeLimit_finalized_bounded (K : Nat) (fmt : String) (bs : List Batch)
    (f : List Batch)
    (hf : f ∈ (runKbFrom ⟨K, 0, fmt, 0⟩ dir0 bs).2.finalized) (h2 : 2 ≤ f.length) :
    fileSizeBytes f ≤ 1024 * K + 2047 :=
  (runKb_inv bs ⟨K, 0, fmt, 0⟩ dir0 ⟨by simp [dir0], by simp [dir0]⟩).1 f hf h2

/-- Witness for sizeLimit_finalized_bounded: the run of the recorded
counterexample, whose finalized two-batch file of 2047 bytes satisfies the
amended bound 1024*1 + 2047. -/
theorem sizeLimit_finalized_bounded_witness :
    fileSizeBytes [b1023, b1023] ≤ 1024 * 1 + 2047 :=
  sizeLimit_finalized_bounded 1 Json [b1023, b1023, b2048] [b1023, b1023]
    (by simp [runKbFrom, stepKb, writeAsPerKb, writeAsPerKbPostGlob, isFileSizeExceeding,
      globStaging, fileSizeBytes, b1023_length, b2048_length, noFail, applyOp, dir0])
    (by simp)

/-- The staging marker cannot match at the start of s ++ marker when it does
not match at the start of nonempty s: any such match would either lie inside
s or force the marker to overlap itself, which its concrete characters rule
out. -/
theorem matchesAt_marker_append (s : List Char) (hs : s ≠ [])
    (h : matchesAt marker s = false) : matchesAt marker (s ++ marker) = false := by
  by_contra hT
  rw [Bool.not_eq_false] at hT
  have hEq : marker = (s ++ marker).take marker.length := of_decide_eq_true hT
  by_cases hlen : marker.length ≤ s.length
  · rw [List.take_append_of_le_length hlen] at hEq
    have hT2 : matchesAt marker s = true := decide_eq_true hEq
    rw [h] at hT2
    exact Bool.noConfusion hT2
  · push_neg at hlen
    have hs1 : 1 ≤ s.length := List.length_pos.mpr hs
    rw [List.take_append_eq_append_take, List.take_of_length_le (le_of_lt hlen)] at hEq
    have hD := congrArg (List.drop s.length) hEq
    rw [List.drop_left] at hD
    have hlen6 : s.length ≤ 6 := by
      have hm7 : marker.length = 7 := rfl
      omega
    have hcases : s.length = 1 ∨ s.length = 2 ∨ s.length = 3 ∨ s.length = 4 ∨
        s.length = 5 ∨ s.length = 6 := by omega
    rcases hcases with h1 | h1 | h1 | h1 | h1 | h1 <;> rw [h1] at hD <;>
      exact absurd hD (by decide)

/-- Replacing the first occurrence of the staging marker in s ++ marker,
when the marker does not occur in s, replaces exactly the final marker. -/
theorem replaceFirst_marker (s new : List Char) (hOcc : occursIn marker s = false) :
    replaceFirst (s ++ marker) marker new = s ++ new := by
  induction s with
  | nil =>
    show replaceFirst marker marker new = [] ++ new
    rw [List.nil_append]
    simp [marker, replaceFirst, matchesAt]
  | cons ch s' ih =>
    simp only [occursIn, Bool.or_eq_false_iff] at hOcc
    have hm : matchesAt marker (ch :: (s' ++ marker)) = false := by
      have hm0 := matchesAt_marker_append (ch :: s') (List.cons_ne_nil ch s') hOcc.1
      rwa [List.cons_append] at hm0
    have hstep : replaceFirst ((ch :: s') ++ marker) marker new =
        if matchesAt marker ((ch :: s') ++ marker)
        then new ++ ((ch :: s') ++ marker).drop marker.length
        else ch :: replaceFirst (s' ++ marker) marker new := rfl
    rw [List.cons_append] at hstep ⊢
    rw [hstep, hm]
    simp only [Bool.false_eq_true, if_false]
    rw [ih hOcc.2]
    rfl

/-- C10: the finalize new-name computation (shared by renameFile and the
inline copy in writeAsPerEventCount) maps a staging path s ++ ".inproc",
where the marker does not occur in the leading part s, to s followed by the
timestamp t followed by "." and the format extension: "json" for the json
format and "proto" for the protobuf format.  The timestamp t itself is the
formatting of time.Now().UTC() with the sub-second layout timeFormat,
modelled as an opaque input. -/
theorem finalize_name_spec (s t : List Char) (hOcc : occursIn marker s = false) :
    renameFileNewName (s ++ marker) Json t = .ok (s ++ t ++ '.' :: jsonExt.toList) ∧
    renameFileNewName (s ++ marker) Protobuf t = .ok (s ++ t ++ '.' :: protoExt.toList) := by
  constructor
  · have h1 : renameFileNewName (s ++ marker) Json t =
        .ok (replaceFirst (s ++ marker) marker (t ++ '.' :: jsonExt.toList)) := rfl
    rw [h1, replaceFirst_marker s _ hOcc, List.append_assoc]
  · have h2 : renameFileNewName (s ++ marker) Protobuf t =
        .ok (replaceFirst (s ++ marker) marker (t ++ '.' :: protoExt.toList)) := rfl
    rw [h2, replaceFirst_marker s _ hOcc, List.append_assoc]

/-- Sample directory prefix of a staging path. -/
def sampleDir : List Char := ("/data/traces/").toList

/-- Sample finalize timestamp in the timeFormat layout. -/
def sampleTs : List Char := ("2024_01_02_03_04_05_123456789").toList

/-- Witness for finalize_name_spec at a concrete staging path and timestamp,
for both formats. -/
theorem finalize_name_spec_witness :
    renameFileNewName (sampleDir ++ marker) Json sampleTs =
      .ok (sampleDir ++ sampleTs ++ '.' :: jsonExt.toList) ∧
    renameFileNewName (sampleDir ++ marker) Protobuf sampleTs =
      .ok (sampleDir ++ sampleTs ++ '.' :: protoExt.toList) :=
  finalize_name_spec sampleDir sampleTs (by decide)
